import Mathlib

/-!
Verification of the PaperHub recommendation engine.

This file gives a shallow embedding of the semantic-similarity recommendation
core of the PaperHub repository, namely:

  - app/models.py    : the Paper and ReadingHistory rows used by the engine;
  - app/crud.py      : get_user_read_paper_ids (SELECT DISTINCT paper_id ...);
  - app/recommender.py : PaperRecommender.generate_paper_embedding,
      find_similar_papers, recommend_by_paper, recommend_by_reading_history
      and recommend_hybrid, together with the textual serialization of the
      query vector (vector_str) that find_similar_papers builds.

Modelling conventions:
  - Python strings are sequences of Unicode code points, modelled as List Char
    (Python slicing a[:500] is List.take 500).
  - Python floats and numpy float64 arithmetic are modelled over ℚ; the claims
    settled here concern exact dataflow (which vector is blended and passed
    where), ordering and output shape, none of which depends on rounding.
  - The database session is modelled as an explicit record of the papers table
    and the reading_histories table, in table-scan order.
  - The pgvector cosine-distance operator used in the raw SQL of
    find_similar_papers is external third-party code; the search is therefore
    parametric in the distance function dist.  pgvector evaluates the operator
    row by row over the rows passing the WHERE clause and raises an error when
    the two operands have different dimensions; that behaviour is modelled by
    the explicit dimension check below.  The results of the SQL query are the
    rows ordered by ascending distance, each carrying similarity 1 - distance,
    truncated by LIMIT.
-/

/-- Python strings (sequences of Unicode code points). -/
abbrev PyString := List Char

/-- Row of the papers table (app/models.py, class Paper).  Dates are plain
integers; the embedding column is nullable. -/
structure Paper where
  id : Int
  title : PyString
  authors : List PyString
  abstract : Option PyString
  pdf_url : Option PyString
  arxiv_id : Option PyString
  category : Option PyString
  published_date : Option Int
  embedding : Option (List ℚ)
  created_at : Int
  updated_at : Int
deriving DecidableEq

/-- Row of the reading_histories table (app/models.py, class ReadingHistory). -/
structure ReadingHistory where
  id : Int
  paper_id : Int
  user_id : PyString
  read_at : Int
  rating : Option Int
  notes : Option PyString
deriving DecidableEq

/-- The database state visible to the recommender: the papers table and the
reading_histories table, each in table-scan order. -/
structure DB where
  papers : List Paper
  history : List ReadingHistory

/-- SELECT DISTINCT over a scanned column, keeping the first occurrence of each
value; the accumulator holds the values already emitted.  (Postgres does not
promise any particular order for DISTINCT without ORDER BY; first-occurrence
order is the deterministic stand-in used by this model.) -/
def sqlDistinctAux (seen : List Int) : List Int → List Int
  | [] => []
  | x :: xs =>
    if seen.contains x then sqlDistinctAux seen xs
    else x :: sqlDistinctAux (x :: seen) xs

/-- SELECT DISTINCT over a scanned column. -/
def sqlDistinct (l : List Int) : List Int :=
  sqlDistinctAux [] l

/-- Embeds crud.get_user_read_paper_ids: the distinct paper_id values of the
reading_histories rows of the given user, with no ORDER BY. -/
def get_user_read_paper_ids (db : DB) (user_id : PyString) : List Int :=
  sqlDistinct ((db.history.filter fun h => h.user_id == user_id).map
    fun h => h.paper_id)

/-- Rows satisfying the WHERE clause of the raw SQL in find_similar_papers:
embedding IS NOT NULL, and, only when the Python list exclude_ids is truthy
(non-empty), id NOT IN (exclude_ids). -/
def sqlCandidates (db : DB) (exclude_ids : List Int) : List Paper :=
  let exclude_active := !exclude_ids.isEmpty
  db.papers.filter fun p =>
    p.embedding.isSome && (!exclude_active || !(exclude_ids.contains p.id))

/-- Whether evaluating the pgvector distance operator over the candidate rows
hits a stored vector whose dimension differs from the query's; pgvector raises
an error (different vector dimensions) in that case. -/
def hasDimensionMismatch (db : DB) (query_embedding : List ℚ)
    (exclude_ids : List Int) : Bool :=
  (sqlCandidates db exclude_ids).any fun p =>
    (p.embedding.getD []).length != query_embedding.length

/-- Ordering of scored rows by ascending distance (the ORDER BY key of the
raw SQL in find_similar_papers). -/
def distLE (a b : Paper × ℚ) : Prop := a.2 ≤ b.2

instance : DecidableRel distLE :=
  fun a b => inferInstanceAs (Decidable (a.2 ≤ b.2))

instance : IsTotal (Paper × ℚ) distLE :=
  ⟨fun a b => le_total a.2 b.2⟩

instance : IsTrans (Paper × ℚ) distLE :=
  ⟨fun _ _ _ h1 h2 => le_trans h1 h2⟩

/-- The distance error raised inside the SQL query. -/
inductive SqlError where
  | dimensionMismatch
deriving DecidableEq

/-- Embeds PaperRecommender.find_similar_papers: the raw SQL query selecting
all rows with a stored vector (minus the exclusion list when non-empty),
ordered by ascending distance to the query vector, limited to the first
limit rows, each row carrying similarity 1 - distance.  The distance function
dist stands for the external pgvector cosine-distance operator. -/
def find_similar_papers (dist : List ℚ → List ℚ → ℚ) (db : DB)
    (query_embedding : List ℚ) (limit : Nat) (exclude_ids : List Int) :
    Except SqlError (List (Paper × ℚ)) :=
  if hasDimensionMismatch db query_embedding exclude_ids then
    Except.error SqlError.dimensionMismatch
  else
    Except.ok
      (((List.insertionSort distLE
          ((sqlCandidates db exclude_ids).map
            fun p => (p, dist (p.embedding.getD []) query_embedding))).take
        limit).map fun pd => (pd.1, 1 - pd.2))

/-- Embeds PaperRecommender.recommend_by_paper: first row with the given id;
empty result when it is absent or carries no embedding; otherwise a similarity
search on the paper's own vector, excluding the paper itself when asked to. -/
def recommend_by_paper (dist : List ℚ → List ℚ → ℚ) (db : DB)
    (paper_id : Int) (limit : Nat) (exclude_current : Bool) :
    Except SqlError (List (Paper × ℚ)) :=
  match (db.papers.find? fun p => p.id == paper_id) with
  | none => Except.ok []
  | some paper =>
    match paper.embedding with
    | none => Except.ok []
    | some emb =>
      let exclude_ids := if exclude_current then [paper_id] else []
      find_similar_papers dist db emb limit exclude_ids

/-- Rows of the papers table whose id is among the first history_limit read
paper ids and whose embedding is not null (the recent_papers query of
recommend_by_reading_history and recommend_hybrid). -/
def recentPapersWithVectors (db : DB) (read_paper_ids : List Int)
    (history_limit : Nat) : List Paper :=
  db.papers.filter fun p =>
    (read_paper_ids.take history_limit).contains p.id && p.embedding.isSome

/-- Element-wise vector addition (numpy array addition on equal shapes). -/
def vecAdd (a b : List ℚ) : List ℚ := List.zipWith (· + ·) a b

/-- Embeds np.mean(embeddings, axis=0): the element-wise sum of the vectors
divided by how many vectors there are. -/
def np_mean_axis0 (embeddings : List (List ℚ)) : List ℚ :=
  match embeddings with
  | [] => []
  | v :: vs =>
    (vs.foldl vecAdd v).map fun x => x / (((v :: vs).length : Nat) : ℚ)

/-- Embeds PaperRecommender.recommend_by_reading_history: empty when the user
has no read paper ids or when no windowed read paper carries a vector;
otherwise a similarity search on the mean embedding of the windowed read
papers that carry a vector, excluding every read paper id. -/
def recommend_by_reading_history (dist : List ℚ → List ℚ → ℚ) (db : DB)
    (user_id : PyString) (limit : Nat) (history_limit : Nat) :
    Except SqlError (List (Paper × ℚ)) :=
  let read_paper_ids := get_user_read_paper_ids db user_id
  if read_paper_ids.isEmpty then Except.ok []
  else
    let recent_papers := recentPapersWithVectors db read_paper_ids history_limit
    if recent_papers.isEmpty then Except.ok []
    else
      let avg_embedding :=
        np_mean_axis0 (recent_papers.map fun p => p.embedding.getD [])
      find_similar_papers dist db avg_embedding limit read_paper_ids

/-- Embeds PaperRecommender.recommend_hybrid: empty when the target paper is
absent or carries no embedding; otherwise a similarity search on the blend
0.7 * paper vector + 0.3 * mean of the (at most 5 windowed) read papers with
vectors, falling back to the paper vector when no such read paper exists,
excluding the target paper id and every read paper id. -/
def recommend_hybrid (dist : List ℚ → List ℚ → ℚ) (db : DB)
    (paper_id : Int) (user_id : PyString) (limit : Nat) :
    Except SqlError (List (Paper × ℚ)) :=
  match (db.papers.find? fun p => p.id == paper_id) with
  | none => Except.ok []
  | some current_paper =>
    match current_paper.embedding with
    | none => Except.ok []
    | some current_embedding =>
      let read_paper_ids := get_user_read_paper_ids db user_id
      let recent_papers :=
        if read_paper_ids.isEmpty then []
        else recentPapersWithVectors db read_paper_ids 5
      let hybrid_embedding :=
        if recent_papers.isEmpty then current_embedding
        else
          let avg_history_embedding :=
            np_mean_axis0 (recent_papers.map fun p => p.embedding.getD [])
          List.zipWith
            (fun c h => (7 / 10 : ℚ) * c + (3 / 10 : ℚ) * h)
            current_embedding avg_history_embedding
      let exclude_ids := paper_id :: read_paper_ids
      find_similar_papers dist db hybrid_embedding limit exclude_ids

/-- Embeds PaperRecommender.generate_paper_embedding: the title, followed,
when the abstract is truthy (present and non-empty), by the first 500
characters of the abstract, joined by a single space, then embedded.  The
embedding model is external; it is the parameter encode. -/
def generate_paper_embedding (encode : PyString → List ℚ) (paper : Paper) :
    List ℚ :=
  let text_parts : List PyString :=
    match paper.abstract with
    | some a => if a.isEmpty then [paper.title] else [paper.title, a.take 500]
    | none => [paper.title]
  encode (List.intercalate [' '] text_parts)

/-- Decimal digit character for the value n % 10. -/
def digitChar (n : Nat) : Char := Char.ofNat (48 + n % 10)

/-- Decimal rendering of a natural number, most significant digit first. -/
def natDecimal (n : Nat) : List Char :=
  if h : n < 10 then [digitChar n]
  else natDecimal (n / 10) ++ [digitChar (n % 10)]
decreasing_by exact Nat.div_lt_self (by omega) (by omega)

/-- Fractional part of the fixed-point rendering: exactly 10 digits,
zero-padded on the left. -/
def fracPad (f : Nat) : List Char :=
  List.replicate (10 - (natDecimal f).length) '0' ++ natDecimal f

/-- Embeds the Python fixed-point float format with precision 10 (format spec
.10f) applied to each component in find_similar_papers: the value rounded to
10 decimal places, written as an optional minus sign, the integer part in
decimal, a decimal point, and exactly 10 fractional digits.  (The exact
rounding mode of the binary double is immaterial to the properties proved
here, which concern only the shape of the output.) -/
def formatFixed10 (q : ℚ) : PyString :=
  let scaled : Int := round (q * (10 : ℚ) ^ 10)
  let sign : PyString := if scaled < 0 then ['-'] else []
  let m : Nat := scaled.natAbs
  sign ++ natDecimal (m / 10 ^ 10) ++ ['.'] ++ fracPad (m % 10 ^ 10)

/-- Embeds the vector_str built by find_similar_papers: an opening bracket,
the components rendered by the fixed-point format joined by commas, and a
closing bracket. -/
def vector_str (query_embedding : List ℚ) : PyString :=
  ['['] ++ List.intercalate [','] (query_embedding.map formatFixed10) ++ [']']

/-- Shape of a fixed-point decimal rendering: an optional minus sign, a
non-empty run of digits, a decimal point, and at least 8 (here exactly 10)
fractional digits; in particular no exponent marker. -/
def fixedPointForm (s : PyString) : Prop :=
  ∃ sign intPart frac : PyString,
    s = sign ++ intPart ++ ['.'] ++ frac ∧
    (sign = [] ∨ sign = ['-']) ∧
    intPart ≠ [] ∧ (∀ c ∈ intPart, c.isDigit = true) ∧
    frac.length = 10 ∧ 8 ≤ frac.length ∧ (∀ c ∈ frac, c.isDigit = true)

/-- Constant distance function used to instantiate the parametric search in
concrete evaluations. -/
def constDistZero : List ℚ → List ℚ → ℚ := fun _ _ => 0

/-- Paper row constructor with the fields the engine never reads fixed. -/
def mkPaper (id : Int) (embedding : Option (List ℚ)) : Paper :=
  { id := id, title := ['t'], authors := [], abstract := none,
    pdf_url := none, arxiv_id := none, category := none,
    published_date := none, embedding := embedding,
    created_at := 0, updated_at := 0 }

/-- Reading-history row constructor with the fields the engine never reads
fixed. -/
def mkRead (id : Int) (paper_id : Int) (user_id : PyString) (read_at : Int) :
    ReadingHistory :=
  { id := id, paper_id := paper_id, user_id := user_id, read_at := read_at,
    rating := none, notes := none }

/-- Single paper, used to evaluate the exclusion invariant. -/
def paperC1 : Paper := mkPaper 1 (some [0])

/-- Database for evaluating the exclusion invariant. -/
def dbC1 : DB := ⟨[paperC1], []⟩

/-- Database for evaluating the ordering and length bound. -/
def dbC2 : DB := ⟨[mkPaper 1 (some [0])], []⟩

/-- Database whose one user read paper 1 twice (at times 1 and 2) and then
paper 2 (at time 3): the most-recently-read-first per-event id sequence is
2, 1, 1. -/
def dbC3 : DB := ⟨[], [mkRead 1 1 ['u'] 1, mkRead 2 1 ['u'] 2, mkRead 3 2 ['u'] 3]⟩

/-- Paper with a stored vector, read once by the user. -/
def paperC5 : Paper := mkPaper 1 (some [0])

/-- Database with one read paper carrying a vector, for evaluating the hybrid
blend. -/
def dbC5 : DB := ⟨[paperC5], [mkRead 1 1 ['u'] 1]⟩

/-- Database with an empty reading history, for evaluating the hybrid
fallback. -/
def dbC6 : DB := ⟨[mkPaper 3 (some [0])], []⟩

/-- Paper with a stored vector, read once by the user. -/
def paperC7 : Paper := mkPaper 1 (some [0])

/-- Database with one read paper carrying a vector, for evaluating the
history-based strategy. -/
def dbC7 : DB := ⟨[paperC7], [mkRead 1 1 ['u'] 1]⟩

/-- Paper whose abstract is 501 characters long. -/
def paperC8 : Paper :=
  { mkPaper 1 none with abstract := some (List.replicate 501 'a') }

/-- Embedding model stub used to evaluate the truncation property. -/
def encodeC8 : PyString → List ℚ := fun _ => []

/-- Database whose only paper carries no vector and whose history is empty. -/
def dbC9 : DB := ⟨[mkPaper 7 none], []⟩

/-- Paper whose stored vector has dimension 1 rather than 384. -/
def paperC10 : Paper := mkPaper 1 (some [0])

/-- Database containing a paper whose stored vector has the wrong dimension. -/
def dbC10 : DB := ⟨[paperC10], []⟩

lemma mem_sqlDistinctAux :
    ∀ (l seen : List Int) (x : Int),
      x ∈ sqlDistinctAux seen l ↔ x ∈ l ∧ x ∉ seen := by
  intro l
  induction l with
  | nil => intro seen x; simp [sqlDistinctAux]
  | cons a t ih =>
    intro seen x
    by_cases ha : seen.contains a
    · rw [sqlDistinctAux, if_pos ha, ih]
      have haseen : a ∈ seen := by
        simpa [List.contains, List.elem_iff] using ha
      constructor
      · rintro ⟨hxt, hxs⟩; exact ⟨List.mem_cons_of_mem _ hxt, hxs⟩
      · rintro ⟨hx, hxs⟩
        rcases List.mem_cons.mp hx with rfl | hxt
        · exact absurd haseen hxs
        · exact ⟨hxt, hxs⟩
    · rw [sqlDistinctAux, if_neg ha]
      have haseen : a ∉ seen := by
        simpa [List.contains, List.elem_iff] using ha
      constructor
      · intro hx
        rcases List.mem_cons.mp hx with rfl | hxt
        · exact ⟨List.mem_cons_self _ _, haseen⟩
        · rcases (ih (a :: seen) x).mp hxt with ⟨hxt2, hxs⟩
          refine ⟨List.mem_cons_of_mem _ hxt2, fun hxs2 => hxs ?_⟩
          exact List.mem_cons_of_mem _ hxs2
      · rintro ⟨hx, hxs⟩
        rcases List.mem_cons.mp hx with rfl | hxt
        · exact List.mem_cons_self _ _
        · by_cases hxa : x = a
          · subst hxa; exact List.mem_cons_self _ _
          · refine List.mem_cons_of_mem _ ((ih (a :: seen) x).mpr ⟨hxt, ?_⟩)
            intro hmem
            rcases List.mem_cons.mp hmem with h1 | h2
            · exact hxa h1
            · exact hxs h2

lemma nodup_sqlDistinctAux :
    ∀ (l seen : List Int), (sqlDistinctAux seen l).Nodup := by
  intro l
  induction l with
  | nil => intro seen; simp [sqlDistinctAux]
  | cons a t ih =>
    intro seen
    by_cases ha : seen.contains a
    · rw [sqlDistinctAux, if_pos ha]; exact ih seen
    · rw [sqlDistinctAux, if_neg ha]
      refine List.nodup_cons.mpr ⟨?_, ih (a :: seen)⟩
      intro hmem
      exact ((mem_sqlDistinctAux t (a :: seen) a).mp hmem).2
        (List.mem_cons_self _ _)

lemma nodup_sqlDistinct (l : List Int) : (sqlDistinct l).Nodup :=
  nodup_sqlDistinctAux l []

lemma mem_sqlDistinct {l : List Int} {x : Int} :
    x ∈ sqlDistinct l ↔ x ∈ l := by
  rw [sqlDistinct, mem_sqlDistinctAux]
  simp

lemma mem_get_user_read_paper_ids {db : DB} {user_id : PyString} {pid : Int} :
    pid ∈ get_user_read_paper_ids db user_id ↔
      ∃ h ∈ db.history, h.user_id = user_id ∧ h.paper_id = pid := by
  rw [get_user_read_paper_ids, mem_sqlDistinct]
  simp [List.mem_map, List.mem_filter, and_assoc]

lemma mem_sqlCandidates {db : DB} {exclude_ids : List Int} {p : Paper} :
    p ∈ sqlCandidates db exclude_ids ↔
      p ∈ db.papers ∧ p.embedding.isSome = true ∧ p.id ∉ exclude_ids := by
  unfold sqlCandidates
  simp only [List.mem_filter, Bool.and_eq_true, Bool.or_eq_true,
    Bool.not_eq_true', Bool.not_not, List.contains, List.isEmpty_iff,
    List.elem_iff, Bool.not_eq_true]
  constructor
  · rintro ⟨hp, hs, hor⟩
    refine ⟨hp, hs, ?_⟩
    rcases hor with hnil | hnc
    · subst hnil; exact List.not_mem_nil _
    · intro hmem
      have helem := List.elem_iff.mpr hmem
      rw [hnc] at helem
      exact Bool.false_ne_true helem
  · rintro ⟨hp, hs, hn⟩
    refine ⟨hp, hs, Or.inr ?_⟩
    exact Bool.eq_false_iff.mpr (fun hc => hn (List.elem_iff.mp hc))

lemma find_similar_papers_ok {dist : List ℚ → List ℚ → ℚ} {db : DB}
    {query_embedding : List ℚ} {limit : Nat} {exclude_ids : List Int}
    {res : List (Paper × ℚ)}
    (h : find_similar_papers dist db query_embedding limit exclude_ids =
      Except.ok res) :
    res = ((List.insertionSort distLE
        ((sqlCandidates db exclude_ids).map
          fun p => (p, dist (p.embedding.getD []) query_embedding))).take
      limit).map fun pd => (pd.1, 1 - pd.2) := by
  unfold find_similar_papers at h
  split at h
  · exact absurd h (by simp)
  · exact (Except.ok.inj h).symm

/-- C1: for every query vector, limit, and exclusion set, the sequence
returned by the similarity search contains no paper whose id is in the
exclusion set. -/
theorem find_similar_papers_respects_exclusion
    (dist : List ℚ → List ℚ → ℚ) (db : DB) (query_embedding : List ℚ)
    (limit : Nat) (exclude_ids : List Int) (res : List (Paper × ℚ))
    (h : find_similar_papers dist db query_embedding limit exclude_ids =
      Except.ok res) :
    ∀ pr ∈ res, pr.1.id ∉ exclude_ids := by
  intro pr hpr
  rw [find_similar_papers_ok h] at hpr
  rcases List.mem_map.mp hpr with ⟨pd, hpd, rfl⟩
  have hsorted : pd ∈ List.insertionSort distLE
      ((sqlCandidates db exclude_ids).map
        fun p => (p, dist (p.embedding.getD []) query_embedding)) :=
    (List.take_sublist _ _).subset hpd
  have hscored := (List.perm_insertionSort distLE _).mem_iff.mp hsorted
  rcases List.mem_map.mp hscored with ⟨p, hp, rfl⟩
  exact (mem_sqlCandidates.mp hp).2.2

/-- Witness for C1: a database with one stored vector, queried with an
exclusion set not containing it; the returned row's id avoids the
exclusion set. -/
theorem find_similar_papers_respects_exclusion_witness :
    paperC1.id ∉ ([2] : List Int) :=
  find_similar_papers_respects_exclusion constDistZero dbC1 [0] 10 [2]
    [(paperC1, 1 - constDistZero [0] [0])] rfl
    (paperC1, 1 - constDistZero [0] [0]) (List.mem_singleton.mpr rfl)

/-- C2: for every query vector, limit, and exclusion set, the sequence
returned by the similarity search is sorted by non-increasing similarity
score, and its length is exactly the minimum of the limit and the number of
eligible candidates (papers with a stored vector whose id is outside the
exclusion set), so the length is at most the limit and falls short of it only
when fewer eligible candidates exist. -/
theorem find_similar_papers_sorted_and_bounded
    (dist : List ℚ → List ℚ → ℚ) (db : DB) (query_embedding : List ℚ)
    (limit : Nat) (exclude_ids : List Int) (res : List (Paper × ℚ))
    (h : find_similar_papers dist db query_embedding limit exclude_ids =
      Except.ok res) :
    List.Sorted (fun a b : ℚ => b ≤ a) (res.map Prod.snd) ∧
    res.length = min limit (sqlCandidates db exclude_ids).length ∧
    ∀ p : Paper, p ∈ sqlCandidates db exclude_ids ↔
      p ∈ db.papers ∧ p.embedding.isSome = true ∧ p.id ∉ exclude_ids := by
  rw [find_similar_papers_ok h]
  refine ⟨?_, ?_, fun p => mem_sqlCandidates⟩
  · have hs := List.sorted_insertionSort distLE
      ((sqlCandidates db exclude_ids).map
        fun p => (p, dist (p.embedding.getD []) query_embedding))
    have ht : List.Pairwise distLE
        ((List.insertionSort distLE
          ((sqlCandidates db exclude_ids).map
            fun p => (p, dist (p.embedding.getD []) query_embedding))).take
          limit) :=
      List.Pairwise.sublist (List.take_sublist _ _) hs
    rw [List.map_map]
    refine List.pairwise_map.mpr (ht.imp ?_)
    intro a b hab
    exact sub_le_sub_left hab 1
  · simp [List.length_map, List.length_take, List.length_insertionSort]

/-- Witness for C2: a database whose only stored vector is excluded; the
result is empty, sorted, and of length the minimum of the limit and the zero
eligible candidates. -/
theorem find_similar_papers_sorted_and_bounded_witness :
    List.Sorted (fun a b : ℚ => b ≤ a)
      (([] : List (Paper × ℚ)).map Prod.snd) ∧
    ([] : List (Paper × ℚ)).length = min 10 (sqlCandidates dbC2 [1]).length ∧
    (mkPaper 1 (some [0]) ∈ sqlCandidates dbC2 [1] ↔
      mkPaper 1 (some [0]) ∈ dbC2.papers ∧
        (mkPaper 1 (some [0])).embedding.isSome = true ∧
        (mkPaper 1 (some [0])).id ∉ ([1] : List Int)) :=
  have h :=
    find_similar_papers_sorted_and_bounded constDistZero dbC2 [0] 10 [1] [] rfl
  ⟨h.1, h.2.1, h.2.2 (mkPaper 1 (some [0]))⟩

/-- C10: whenever some candidate row (stored vector present, id not excluded)
carries a vector whose length differs from the model dimension 384 while the
query vector has the model dimension, the similarity search fails the whole
query with the dimension-mismatch error instead of skipping the row or
returning a result. -/
theorem find_similar_papers_dimension_mismatch
    (dist : List ℚ → List ℚ → ℚ) (db : DB) (query_embedding : List ℚ)
    (limit : Nat) (exclude_ids : List Int) (p : Paper)
    (hq : query_embedding.length = 384)
    (hp : p ∈ db.papers) (hvec : p.embedding.isSome = true)
    (hexcl : p.id ∉ exclude_ids)
    (hdim : (p.embedding.getD []).length ≠ 384) :
    find_similar_papers dist db query_embedding limit exclude_ids =
      Except.error SqlError.dimensionMismatch := by
  have hmm : hasDimensionMismatch db query_embedding exclude_ids = true := by
    unfold hasDimensionMismatch
    refine List.any_eq_true.mpr ⟨p, mem_sqlCandidates.mpr ⟨hp, hvec, hexcl⟩, ?_⟩
    rw [hq]
    exact bne_iff_ne.mpr hdim
  unfold find_similar_papers
  rw [hmm]
  rfl

/-- Witness for C10: a 384-dimensional query over a table holding a
1-dimensional stored vector fails with the dimension-mismatch error. -/
theorem find_similar_papers_dimension_mismatch_witness :
    find_similar_papers constDistZero dbC10 (List.replicate 384 0) 10 [] =
      Except.error SqlError.dimensionMismatch :=
  find_similar_papers_dimension_mismatch constDistZero dbC10
    (List.replicate 384 0) 10 [] paperC10 (List.length_replicate 384 0)
    (List.mem_singleton.mpr rfl) rfl (List.not_mem_nil _) (by decide)

/-- C3 counterexample: in a database where the user read paper 1 at times 1
and 2 and paper 2 at time 3, the id sequence consumed by the strategies has
2 entries while the history has 3 read events (so it is not one entry per
historical read event), and it differs from the most-recently-read-first
per-event sequence 2, 1, 1. -/
theorem get_user_read_paper_ids_not_per_event_recency :
    (get_user_read_paper_ids dbC3 ['u']).length ≠
      (dbC3.history.filter fun h => h.user_id == ['u']).length ∧
    get_user_read_paper_ids dbC3 ['u'] ≠ [2, 1, 1] := by
  decide

/-- C3 amended: get_user_read_paper_ids returns the distinct ids of the
papers the user has read (one entry per distinct read paper, never one per
read event) and carries no ordering promise; its members are exactly the ids
occurring in the user's read events. -/
theorem get_user_read_paper_ids_distinct
    (db : DB) (user_id : PyString) :
    (get_user_read_paper_ids db user_id).Nodup ∧
    ∀ pid : Int, pid ∈ get_user_read_paper_ids db user_id ↔
      ∃ h ∈ db.history, h.user_id = user_id ∧ h.paper_id = pid :=
  ⟨nodup_sqlDistinct _, fun _ => mem_get_user_read_paper_ids⟩

/-- C6: when the user's read history is empty, recommend_hybrid returns
exactly what recommend_by_paper returns for the same paper id and limit
(with its default of excluding the current paper). -/
theorem recommend_hybrid_empty_history_eq_by_paper
    (dist : List ℚ → List ℚ → ℚ) (db : DB) (paper_id : Int)
    (user_id : PyString) (limit : Nat)
    (h : get_user_read_paper_ids db user_id = []) :
    recommend_hybrid dist db paper_id user_id limit =
      recommend_by_paper dist db paper_id limit true := by
  unfold recommend_hybrid recommend_by_paper
  cases hf : db.papers.find? fun p => p.id == paper_id with
  | none => rfl
  | some cp =>
    cases he : cp.embedding with
    | none => simp [he]
    | some ce => simp [he, h]

/-- Witness for C6: a database with an empty reading history, on which the
hybrid strategy coincides with the by-paper strategy. -/
theorem recommend_hybrid_empty_history_eq_by_paper_witness :
    recommend_hybrid constDistZero dbC6 3 ['u'] 5 =
      recommend_by_paper constDistZero dbC6 3 5 true :=
  recommend_hybrid_empty_history_eq_by_paper constDistZero dbC6 3 ['u'] 5 rfl

/-- C9: the strategies degrade to an empty successful result, never an error:
recommend_by_paper and recommend_hybrid when no paper with the given id
carries a stored vector; recommend_by_reading_history when the user has zero
read events, and also when none of the windowed read papers carries a stored
vector. -/
theorem recommend_strategies_degrade_to_empty
    (dist : List ℚ → List ℚ → ℚ) (db : DB) (paper_id : Int)
    (user_id : PyString) (limit history_limit : Nat) :
    ((∀ p ∈ db.papers, p.id = paper_id → p.embedding = none) →
      recommend_by_paper dist db paper_id limit true = Except.ok [] ∧
      recommend_hybrid dist db paper_id user_id limit = Except.ok []) ∧
    ((∀ h ∈ db.history, h.user_id ≠ user_id) →
      recommend_by_reading_history dist db user_id limit history_limit =
        Except.ok []) ∧
    ((∀ p ∈ db.papers,
        p.id ∈ (get_user_read_paper_ids db user_id).take history_limit →
          p.embedding = none) →
      recommend_by_reading_history dist db user_id limit history_limit =
        Except.ok []) := by
  refine ⟨?_, ?_, ?_⟩
  · intro hA
    have hemb : ∀ cp, (db.papers.find? fun p => p.id == paper_id) = some cp →
        cp.embedding = none := by
      intro cp hf
      exact hA cp (List.mem_of_find?_eq_some hf)
        (by simpa using List.find?_some hf)
    constructor
    · unfold recommend_by_paper
      cases hf : db.papers.find? fun p => p.id == paper_id with
      | none => rfl
      | some cp => simp [hemb cp hf]
    · unfold recommend_hybrid
      cases hf : db.papers.find? fun p => p.id == paper_id with
      | none => rfl
      | some cp => simp [hemb cp hf]
  · intro hB
    have hids : get_user_read_paper_ids db user_id = [] := by
      unfold get_user_read_paper_ids
      have hfil : (db.history.filter fun h => h.user_id == user_id) = [] :=
        List.filter_eq_nil.mpr (fun a ha => by simpa using hB a ha)
      rw [hfil]
      rfl
    unfold recommend_by_reading_history
    rw [hids]
    rfl
  · intro hC
    unfold recommend_by_reading_history
    by_cases hempty : (get_user_read_paper_ids db user_id).isEmpty
    · simp [hempty]
    · have hrec : recentPapersWithVectors db
          (get_user_read_paper_ids db user_id) history_limit = [] := by
        unfold recentPapersWithVectors
        refine List.filter_eq_nil.mpr ?_
        intro p hp
        by_cases hmem : p.id ∈
            (get_user_read_paper_ids db user_id).take history_limit
        · have hnone := hC p hp hmem
          simp [hnone]
        · simp [hmem]
      simp [hempty, hrec]

/-- Witness for C9: a database whose only paper has no vector and whose
history is empty; all three strategies return the empty result. -/
theorem recommend_strategies_degrade_to_empty_witness :
    (recommend_by_paper constDistZero dbC9 7 5 true = Except.ok [] ∧
     recommend_hybrid constDistZero dbC9 7 ['u'] 5 = Except.ok []) ∧
    recommend_by_reading_history constDistZero dbC9 ['u'] 5 10 =
      Except.ok [] :=
  ⟨(recommend_strategies_degrade_to_empty constDistZero dbC9 7 ['u'] 5 10).1
      (by decide),
   (recommend_strategies_degrade_to_empty constDistZero dbC9 7 ['u'] 5 10).2.1
      (by decide)⟩

lemma length_foldl_vecAdd :
    ∀ (vs : List (List ℚ)) (v : List ℚ) (d : Nat), v.length = d →
      (∀ u ∈ vs, u.length = d) → (vs.foldl vecAdd v).length = d := by
  intro vs
  induction vs with
  | nil => intro v d hv _; simpa using hv
  | cons u vs ih =>
    intro v d hv hall
    have hu : u.length = d := hall u (by simp)
    have hvu : (vecAdd v u).length = d := by
      simp [vecAdd, List.length_zipWith, hv, hu]
    simpa [List.foldl_cons] using
      ih (vecAdd v u) d hvu (fun w hw => hall w (by simp [hw]))

lemma getD_foldl_vecAdd :
    ∀ (vs : List (List ℚ)) (v : List ℚ) (d : Nat), v.length = d →
      (∀ u ∈ vs, u.length = d) → ∀ i : Nat, i < d →
      (vs.foldl vecAdd v).getD i 0 =
        v.getD i 0 + ((vs.map fun u => u.getD i 0).sum) := by
  intro vs
  induction vs with
  | nil => intro v d _ _ i _; simp
  | cons u vs ih =>
    intro v d hv hall i hi
    have hu : u.length = d := hall u (by simp)
    have hvu : (vecAdd v u).length = d := by
      simp [vecAdd, List.length_zipWith, hv, hu]
    have hstep : (vecAdd v u).getD i 0 = v.getD i 0 + u.getD i 0 := by
      have h1 : i < v.length := by omega
      have h2 : i < u.length := by omega
      have h3 : i < (vecAdd v u).length := by omega
      rw [List.getD_eq_getElem _ _ h3, List.getD_eq_getElem _ _ h1,
        List.getD_eq_getElem _ _ h2]
      exact List.getElem_zipWith
    calc ((u :: vs).foldl vecAdd v).getD i 0
        = (vs.foldl vecAdd (vecAdd v u)).getD i 0 := by rw [List.foldl_cons]
      _ = (vecAdd v u).getD i 0 + ((vs.map fun w => w.getD i 0).sum) :=
          ih (vecAdd v u) d hvu (fun w hw => hall w (by simp [hw])) i hi
      _ = v.getD i 0 + (((u :: vs).map fun w => w.getD i 0).sum) := by
          rw [hstep, List.map_cons, List.sum_cons, add_assoc]

lemma np_mean_axis0_getD {embs : List (List ℚ)} {d : Nat}
    (hne : embs ≠ []) (hlen : ∀ u ∈ embs, u.length = d) {i : Nat}
    (hi : i < d) :
    (np_mean_axis0 embs).getD i 0 =
      ((embs.map fun u => u.getD i 0).sum) / ((embs.length : Nat) : ℚ) := by
  match embs, hne with
  | v :: vs, _ =>
    have hv : v.length = d := hlen v (by simp)
    have hvs : ∀ u ∈ vs, u.length = d := fun u hu => hlen u (by simp [hu])
    have hflen : (vs.foldl vecAdd v).length = d :=
      length_foldl_vecAdd vs v d hv hvs
    have hif : i < (vs.foldl vecAdd v).length := by omega
    have himap : i <
        ((vs.foldl vecAdd v).map
          (fun x => x / (((v :: vs).length : Nat) : ℚ))).length := by
      simpa using hif
    unfold np_mean_axis0
    rw [List.getD_eq_getElem _ _ himap, List.getElem_map,
      ← List.getD_eq_getElem (vs.foldl vecAdd v) 0 hif,
      getD_foldl_vecAdd vs v d hv hvs i hi]
    simp [List.map_cons, List.sum_cons]

/-- C7: when some windowed read paper carries a stored vector, the
history-based strategy queries the search with the mean of exactly the
vectors of the windowed read papers that carry one, and excludes the full
list of read paper ids; the windowed vector-carrying papers are exactly the
table rows whose id lies in the first history_limit read ids and whose
embedding is present (vector-less read papers contribute nothing), while the
read-id list covers every read event of the user. -/
theorem recommend_by_reading_history_centroid_and_exclusion
    (dist : List ℚ → List ℚ → ℚ) (db : DB) (user_id : PyString)
    (limit history_limit : Nat)
    (hn : recentPapersWithVectors db (get_user_read_paper_ids db user_id)
      history_limit ≠ []) :
    recommend_by_reading_history dist db user_id limit history_limit =
      find_similar_papers dist db
        (np_mean_axis0
          ((recentPapersWithVectors db (get_user_read_paper_ids db user_id)
            history_limit).map fun p => p.embedding.getD []))
        limit (get_user_read_paper_ids db user_id) ∧
    (∀ p : Paper,
      p ∈ recentPapersWithVectors db (get_user_read_paper_ids db user_id)
          history_limit ↔
        p ∈ db.papers ∧
          p.id ∈ (get_user_read_paper_ids db user_id).take history_limit ∧
          p.embedding.isSome = true) ∧
    (∀ pid : Int, pid ∈ get_user_read_paper_ids db user_id ↔
      ∃ h ∈ db.history, h.user_id = user_id ∧ h.paper_id = pid) := by
  have hread : get_user_read_paper_ids db user_id ≠ [] := by
    intro h0
    apply hn
    rw [h0]
    unfold recentPapersWithVectors
    exact List.filter_eq_nil.mpr (fun p _ => by simp)
  refine ⟨?_, fun p => ?_, fun pid => mem_get_user_read_paper_ids⟩
  · unfold recommend_by_reading_history
    simp [List.isEmpty_eq_false.mpr hread, List.isEmpty_eq_false.mpr hn]
  · unfold recentPapersWithVectors
    simp [List.mem_filter, and_assoc]

/-- Witness for C7: a database whose user read one paper carrying a vector;
the strategy reduces to the search on that paper's vector with the read ids
excluded, and both membership descriptions evaluate. -/
theorem recommend_by_reading_history_centroid_and_exclusion_witness :
    recommend_by_reading_history constDistZero dbC7 ['u'] 10 10 =
      find_similar_papers constDistZero dbC7
        (np_mean_axis0
          ((recentPapersWithVectors dbC7 (get_user_read_paper_ids dbC7 ['u'])
            10).map fun p => p.embedding.getD []))
        10 (get_user_read_paper_ids dbC7 ['u']) ∧
    (paperC7 ∈ recentPapersWithVectors dbC7
        (get_user_read_paper_ids dbC7 ['u']) 10 ↔
      paperC7 ∈ dbC7.papers ∧
        paperC7.id ∈ (get_user_read_paper_ids dbC7 ['u']).take 10 ∧
        paperC7.embedding.isSome = true) ∧
    ((1 : Int) ∈ get_user_read_paper_ids dbC7 ['u'] ↔
      ∃ h ∈ dbC7.history, h.user_id = ['u'] ∧ h.paper_id = 1) :=
  have h := recommend_by_reading_history_centroid_and_exclusion constDistZero
    dbC7 ['u'] 10 10 (by decide)
  ⟨h.1, h.2.1 paperC7, h.2.2 1⟩

/-- C5: when the target paper has a stored vector and at least one of the (at
most 5 windowed) read papers carries one, recommend_hybrid queries the search
with the element-wise blend 0.7 * paper vector + 0.3 * mean of the history
vectors, excluding the target and all read ids; and the mean divides the
element-wise sum by exactly the number of history vectors present. -/
theorem recommend_hybrid_blends_vectors
    (dist : List ℚ → List ℚ → ℚ) (db : DB) (paper_id : Int)
    (user_id : PyString) (limit : Nat) (cp : Paper) (cemb : List ℚ)
    (h1 : (db.papers.find? fun p => p.id == paper_id) = some cp)
    (h2 : cp.embedding = some cemb)
    (h3 : recentPapersWithVectors db (get_user_read_paper_ids db user_id) 5 ≠
      []) :
    recommend_hybrid dist db paper_id user_id limit =
      find_similar_papers dist db
        (List.zipWith (fun c h => (7 / 10 : ℚ) * c + (3 / 10 : ℚ) * h) cemb
          (np_mean_axis0
            ((recentPapersWithVectors db (get_user_read_paper_ids db user_id)
              5).map fun p => p.embedding.getD [])))
        limit (paper_id :: get_user_read_paper_ids db user_id) ∧
    ∀ d : Nat,
      (∀ u ∈ (recentPapersWithVectors db (get_user_read_paper_ids db user_id)
          5).map (fun p => p.embedding.getD []), u.length = d) →
      ∀ i : Nat, i < d →
        (np_mean_axis0
          ((recentPapersWithVectors db (get_user_read_paper_ids db user_id)
            5).map fun p => p.embedding.getD [])).getD i 0 =
          ((((recentPapersWithVectors db (get_user_read_paper_ids db user_id)
              5).map fun p => p.embedding.getD []).map
            fun u => u.getD i 0).sum) /
          ((((recentPapersWithVectors db (get_user_read_paper_ids db user_id)
              5).map fun p => p.embedding.getD []).length : Nat) : ℚ) := by
  have hread : get_user_read_paper_ids db user_id ≠ [] := by
    intro h0
    apply h3
    rw [h0]
    unfold recentPapersWithVectors
    exact List.filter_eq_nil.mpr (fun p _ => by simp)
  constructor
  · unfold recommend_hybrid
    simp [h1, h2, List.isEmpty_eq_false.mpr hread,
      List.isEmpty_eq_false.mpr h3]
  · intro d hlen i hi
    have hne : (recentPapersWithVectors db (get_user_read_paper_ids db
        user_id) 5).map (fun p => p.embedding.getD []) ≠ [] := by
      intro hmapnil
      exact h3 (List.map_eq_nil.mp hmapnil)
    exact np_mean_axis0_getD hne hlen hi

/-- Witness for C5: a database whose target paper carries a vector and whose
user read that paper; the hybrid strategy reduces to a search on the blend
and the mean divides by the number of contributing vectors. -/
theorem recommend_hybrid_blends_vectors_witness :
    recommend_hybrid constDistZero dbC5 1 ['u'] 10 =
      find_similar_papers constDistZero dbC5
        (List.zipWith (fun c h => (7 / 10 : ℚ) * c + (3 / 10 : ℚ) * h) [0]
          (np_mean_axis0
            ((recentPapersWithVectors dbC5 (get_user_read_paper_ids dbC5
              ['u']) 5).map fun p => p.embedding.getD [])))
        10 (1 :: get_user_read_paper_ids dbC5 ['u']) ∧
    (np_mean_axis0
      ((recentPapersWithVectors dbC5 (get_user_read_paper_ids dbC5 ['u'])
        5).map fun p => p.embedding.getD [])).getD 0 0 =
      ((((recentPapersWithVectors dbC5 (get_user_read_paper_ids dbC5
          ['u']) 5).map fun p => p.embedding.getD []).map
        fun u => u.getD 0 0).sum) /
      ((((recentPapersWithVectors dbC5 (get_user_read_paper_ids dbC5
          ['u']) 5).map fun p => p.embedding.getD []).length : Nat) : ℚ) :=
  have h := recommend_hybrid_blends_vectors constDistZero dbC5 1 ['u'] 10
    paperC5 [0] rfl rfl (by decide)
  ⟨h.1, h.2 1 (by decide) 0 (by decide)⟩

/-- C8: for a paper whose abstract is longer than 500 characters, the text
embedded for the paper is unchanged by truncating the abstract to exactly its
first 500 characters, and equals the title joined by a single space with the
first 500 characters of the abstract. -/
theorem generate_paper_embedding_truncates
    (encode : PyString → List ℚ) (p : Paper) (a : PyString)
    (ha : p.abstract = some a) (hlen : 500 < a.length) :
    generate_paper_embedding encode p =
      generate_paper_embedding encode
        { p with abstract := some (a.take 500) } ∧
    generate_paper_embedding encode p =
      encode (p.title ++ [' '] ++ a.take 500) := by
  have hane : a ≠ [] := fun h0 => by simp [h0] at hlen
  have htne : a.take 500 ≠ [] := by
    have hl : (a.take 500).length = 500 := by
      rw [List.length_take]; omega
    intro h0
    rw [h0] at hl
    simp at hl
  constructor
  · unfold generate_paper_embedding
    simp [ha, List.isEmpty_eq_false.mpr hane, List.isEmpty_eq_false.mpr htne,
      List.take_take]
  · unfold generate_paper_embedding
    simp [ha, List.isEmpty_eq_false.mpr hane, List.intercalate,
      List.intersperse]

/-- Witness for C8: a paper whose abstract is 501 identical characters embeds
the same text as with the abstract cut to 500 characters. -/
theorem generate_paper_embedding_truncates_witness :
    generate_paper_embedding encodeC8 paperC8 =
      generate_paper_embedding encodeC8
        { paperC8 with abstract := some ((List.replicate 501 'a').take 500) } ∧
    generate_paper_embedding encodeC8 paperC8 =
      encodeC8 (paperC8.title ++ [' '] ++ (List.replicate 501 'a').take 500) :=
  generate_paper_embedding_truncates encodeC8 paperC8
    (List.replicate 501 'a') rfl
    (by rw [List.length_replicate]; omega)

lemma digitChar_isDigit_aux :
    ∀ m : Nat, m < 10 → (Char.ofNat (48 + m)).isDigit = true := by
  intro m hm
  interval_cases m <;> decide

lemma digitChar_isDigit (n : Nat) : (digitChar n).isDigit = true :=
  digitChar_isDigit_aux (n % 10) (Nat.mod_lt _ (by omega))

lemma natDecimal_digits : ∀ n : Nat, ∀ c ∈ natDecimal n, c.isDigit = true := by
  intro n
  induction n using Nat.strong_induction_on with
  | _ n ih =>
    intro c hc
    unfold natDecimal at hc
    split at hc
    · rcases List.mem_singleton.mp hc with rfl
      exact digitChar_isDigit _
    · rename_i h10
      rcases List.mem_append.mp hc with h | h
      · exact ih (n / 10) (Nat.div_lt_self (by omega) (by omega)) c h
      · rcases List.mem_singleton.mp h with rfl
        exact digitChar_isDigit _

lemma natDecimal_ne_nil (n : Nat) : natDecimal n ≠ [] := by
  unfold natDecimal
  split <;> simp

lemma natDecimal_length_le :
    ∀ (k n : Nat), 1 ≤ k → n < 10 ^ k → (natDecimal n).length ≤ k := by
  intro k
  induction k with
  | zero => intro n h1 _; omega
  | succ k ih =>
    intro n _ hn
    unfold natDecimal
    split
    · simp
    · rename_i h10
      have hk1 : 1 ≤ k := by
        by_contra hk0
        have hk : k = 0 := by omega
        subst hk
        rw [pow_one] at hn
        omega
      have hmul : n < 10 * 10 ^ k := by
        have hps : 10 ^ (k + 1) = 10 ^ k * 10 := pow_succ 10 k
        omega
      have hdiv : n / 10 < 10 ^ k := Nat.div_lt_of_lt_mul hmul
      rw [List.length_append]
      have hrec := ih (n / 10) hk1 hdiv
      simp only [List.length_singleton]
      omega

lemma fracPad_length (f : Nat) (hf : f < 10 ^ 10) : (fracPad f).length = 10 := by
  unfold fracPad
  rw [List.length_append, List.length_replicate]
  have hle := natDecimal_length_le 10 f (by omega) hf
  omega

lemma fracPad_digits (f : Nat) : ∀ c ∈ fracPad f, c.isDigit = true := by
  intro c hc
  unfold fracPad at hc
  rcases List.mem_append.mp hc with h | h
  · rcases List.eq_of_mem_replicate h with rfl
    decide
  · exact natDecimal_digits f c h

lemma formatFixed10_form (q : ℚ) : fixedPointForm (formatFixed10 q) := by
  simp only [formatFixed10]
  refine ⟨(if round (q * (10 : ℚ) ^ 10) < 0 then ['-'] else []),
    natDecimal ((round (q * (10 : ℚ) ^ 10)).natAbs / 10 ^ 10),
    fracPad ((round (q * (10 : ℚ) ^ 10)).natAbs % 10 ^ 10),
    rfl, ?_, ?_, ?_, ?_, ?_, ?_⟩
  · split
    · right; rfl
    · left; rfl
  · exact natDecimal_ne_nil _
  · exact natDecimal_digits _
  · exact fracPad_length _ (Nat.mod_lt _ (by norm_num))
  · rw [fracPad_length _ (Nat.mod_lt _ (by norm_num))]
    omega
  · exact fracPad_digits _

lemma mem_formatFixed10 (q : ℚ) :
    ∀ c ∈ formatFixed10 q, c.isDigit = true ∨ c = '-' ∨ c = '.' := by
  intro c hc
  simp only [formatFixed10] at hc
  rcases List.mem_append.mp hc with h1 | h1
  · rcases List.mem_append.mp h1 with h2 | h2
    · rcases List.mem_append.mp h2 with h3 | h3
      · split at h3
        · rcases List.mem_singleton.mp h3 with rfl
          right; left; rfl
        · exact absurd h3 (List.not_mem_nil c)
      · left; exact natDecimal_digits _ c h3
    · rcases List.mem_singleton.mp h2 with rfl
      right; right; rfl
  · left; exact fracPad_digits _ c h1

lemma mem_intersperse {α : Type} (sep : α) :
    ∀ (l : List α) (x : α), x ∈ l.intersperse sep → x = sep ∨ x ∈ l := by
  intro l
  induction l with
  | nil => intro x hx; simp [List.intersperse] at hx
  | cons a t ih =>
    intro x hx
    cases t with
    | nil =>
      simp [List.intersperse] at hx
      subst hx
      right; simp
    | cons b t2 =>
      rw [List.intersperse_cons_cons] at hx
      rcases List.mem_cons.mp hx with rfl | hx2
      · right; simp
      · rcases List.mem_cons.mp hx2 with rfl | hx3
        · left; rfl
        · rcases ih x hx3 with h | h
          · left; exact h
          · right; exact List.mem_cons_of_mem _ h

/-- C4: every component of the query vector is serialized in fixed-point
decimal form with at least 8 (in fact exactly 10) fractional digits, and
the serialized vector contains no exponent marker, for all component
magnitudes. -/
theorem vector_str_fixed_point (v : List ℚ) :
    (∀ q ∈ v, fixedPointForm (formatFixed10 q)) ∧
    ∀ c ∈ vector_str v, c ≠ 'e' ∧ c ≠ 'E' := by
  constructor
  · intro q _
    exact formatFixed10_form q
  · intro c hc
    unfold vector_str at hc
    have hcases : c = '[' ∨ c = ']' ∨ c = ',' ∨
        (c.isDigit = true ∨ c = '-' ∨ c = '.') := by
      rcases List.mem_append.mp hc with h1 | h1
      · rcases List.mem_append.mp h1 with h2 | h2
        · left; exact List.mem_singleton.mp h2
        · rw [List.intercalate] at h2
          rcases List.mem_flatten.mp h2 with ⟨l, hl, hcl⟩
          rcases mem_intersperse [','] (v.map formatFixed10) l hl with
            rfl | hlm
          · right; right; left; exact List.mem_singleton.mp hcl
          · rcases List.mem_map.mp hlm with ⟨q, _, rfl⟩
            right; right; right
            exact mem_formatFixed10 q c hcl
      · right; left; exact List.mem_singleton.mp h1
    rcases hcases with rfl | rfl | rfl | hd | rfl | rfl
    · exact ⟨by decide, by decide⟩
    · exact ⟨by decide, by decide⟩
    · exact ⟨by decide, by decide⟩
    · refine ⟨fun h => ?_, fun h => ?_⟩
      · subst h; exact absurd hd (by decide)
      · subst h; exact absurd hd (by decide)
    · exact ⟨by decide, by decide⟩
    · exact ⟨by decide, by decide⟩

/-- Witness for C4: the serialization of a concrete one-component vector has
the fixed-point shape and no exponent marker. -/
theorem vector_str_fixed_point_witness :
    fixedPointForm (formatFixed10 ((3 : ℚ) / 2)) :=
  (vector_str_fixed_point [(3 : ℚ) / 2]).1 ((3 : ℚ) / 2)
    (List.mem_singleton.mpr rfl)
